import Mathlib

/-!
Shallow embedding of the Centrifugue native messaging host
(src/native-host/centrifugue_host.py) for verifying its specification.

The host mediates between a browser extension and detached worker
processes doing YouTube stem separation. The embedding models:

  * the ProgressRecord written to ~/.centrifugue_progress.json
    (write_progress / read_progress / clear_progress),
  * the JobRecord written to ~/.centrifugue_job.json
    (save_job_state / load_job_state / clear_job_state),
  * the Supervisor operations start_stems_job, cancel_job,
    check_stale_job,
  * the Worker Process pipeline run_stem_separation_background with
    parse_demucs_progress and its demucs progress-reporting loop.

External effects are abstracted into environment records:
  * SupEnv supplies the clock, OS process liveness (os.kill(pid, 0)),
    the resolved video title (get_video_title) and the pid of the
    spawned worker subprocess.
  * WorkerEnv supplies the outcomes of the external tools invoked by
    the worker (yt-dlp download, ffprobe duration, demucs run with its
    stderr lines, output directory scan, ffmpeg mixing), with Except
    used for Python exceptions raised by a step (caught by the
    worker's top-level try/except).

The persisted files are modelled as typed optional records
(best-effort I/O is modelled on its success path: the code swallows
all I/O errors, and no claim concerns a failing write). The set of
existing workspace directories (tempfile.mkdtemp / shutil.rmtree) is
modelled as a list of directory names. Timestamps (time.time()) are
modelled as integers supplied by the environment.
-/

namespace Centrifugue

/-- Progress stages; stale is only ever derived at read time. -/
inductive Stage where
  | idle
  | downloading
  | processing
  | finalizing
  | complete
  | error
  | stale
deriving DecidableEq, Repr

/-- Rank of a stage in the pipeline order
idle < downloading < processing < finalizing < (complete = error);
stale is read-derived and never written by the worker. -/
def stageRank : Stage → Nat
  | .idle => 0
  | .downloading => 1
  | .processing => 2
  | .finalizing => 3
  | .complete => 4
  | .error => 4
  | .stale => 5

/-- The JSON object written by write_progress, field for field.
timestamp is optional only so that the default record returned by
read_progress when no file exists (which has no timestamp key) is
representable; write_progress always sets it. -/
structure ProgressRecord where
  stage : Stage
  message : String
  percent : Nat
  estimatedSeconds : Option Nat
  videoTitle : Option String
  jobId : Option String
  action : Option String
  quality : Option String
  genre : Option String
  errorText : Option String
  timestamp : Option Int
deriving DecidableEq, Repr

/-- Build the record write_progress persists, with the python
keyword-argument order (stage, message, percent, estimated_seconds,
video_title, job_id, action, quality, genre, error) plus the current
instant. -/
def mkProgress (stage : Stage) (message : String) (percent : Nat)
    (est : Option Nat) (videoTitle : Option String) (jobId : Option String)
    (action : Option String) (quality : Option String) (genre : Option String)
    (errorText : Option String) (now : Int) : ProgressRecord :=
  ⟨stage, message, percent, est, videoTitle, jobId, action, quality, genre,
    errorText, some now⟩

/-- The default record read_progress returns when no progress file
exists: stage idle, message Ready, percent 0. -/
def defaultProgress : ProgressRecord :=
  ⟨.idle, "Ready", 0, none, none, none, none, none, none, none, none⟩

/-- The JSON object written by save_job_state, field for field. -/
structure JobState where
  job_id : String
  pid : Nat
  temp_dir : Option String
  title : String
  action : String
  quality : String
  genre : String
  url : String
  started : Int
deriving DecidableEq, Repr

/-- Persistent state visible to the host: the two persisted records
plus the set of existing workspace directories (modelled as a list of
names; shutil.rmtree removes a name, tempfile.mkdtemp adds one). -/
structure HostState where
  progressFile : Option ProgressRecord
  jobFile : Option JobState
  dirs : List String
deriving DecidableEq, Repr

/-- read_progress: return the stored record, reinterpreting a
processing record older than 600 seconds as stale; default idle
record when no file exists. -/
def read_progress (now : Int) (s : HostState) : ProgressRecord :=
  match s.progressFile with
  | some d =>
      if d.stage = Stage.processing ∧ now - d.timestamp.getD 0 > 600 then
        {d with stage := Stage.stale, message := "Job appears to have stalled"}
      else d
  | none => defaultProgress

/-- read_progress paired with the (unchanged) state: the python
function opens the file read-only and performs no write, which this
pair makes explicit for the no-mutation part of the staleness claim. -/
def read_progress_run (now : Int) (s : HostState) : ProgressRecord × HostState :=
  (read_progress now s, s)

/-- clear_progress: unlink the progress file. -/
def clear_progress (s : HostState) : HostState :=
  {s with progressFile := none}

/-- clear_job_state: unlink the job file. -/
def clear_job_state (s : HostState) : HostState :=
  {s with jobFile := none}

/-- The stages start_stems_job / cancel_job / check_stale_job treat as
an in-flight job: the literal list
['downloading', 'processing', 'finalizing']. -/
def midflight : Stage → Bool
  | .downloading => true
  | .processing => true
  | .finalizing => true
  | _ => false

/-- Environment of one Supervisor invocation: the clock, OS process
liveness as probed by os.kill(pid, 0), the result of get_video_title
(none when resolution fails), and the pid the spawned detached worker
subprocess receives. -/
structure SupEnv where
  now : Int
  alive : Nat → Bool
  titleResult : Option String
  spawnPid : Nat

/-- Response dictionary of start_stems_job. -/
structure StartResult where
  success : Bool
  error : Option String
  job_id : Option String
  video_title : Option String
  message : Option String
deriving DecidableEq, Repr

/-- The error string start_stems_job returns when a live job exists. -/
def jobAlreadyRunningMsg : String :=
  "A job is already running. Please wait for it to complete or cancel it."

/-- The accept path of start_stems_job (the code below the
already-running check): resolve the title with fallback "stems",
allocate the time-derived job id, spawn the detached worker, persist
the JobRecord with the worker's pid and no workspace path, and write
the initial downloading/0 ProgressRecord, returning success
immediately. -/
def startProceed (env : SupEnv) (url quality genre : String)
    (s : HostState) : StartResult × HostState :=
  let title := env.titleResult.getD "stems"
  let jid := "job_" ++ toString env.now
  let s1 : HostState :=
    {s with jobFile := some ⟨jid, env.spawnPid, none, title, "download_stems",
      quality, genre, url, env.now⟩}
  let w := mkProgress .downloading "Starting..." 0 none (some title) (some jid)
    (some "download_stems") (some quality) (some genre) none env.now
  (⟨true, none, some jid, some title, some "Stem separation started"⟩,
    {s1 with progressFile := some w})

/-- start_stems_job: reject when the read progress stage is in flight
and the registered job's pid is alive; clear stale state and proceed
when the pid is dead; otherwise proceed directly. -/
def start_stems_job (env : SupEnv) (url quality genre : String)
    (s : HostState) : StartResult × HostState :=
  let progress := read_progress env.now s
  if midflight progress.stage then
    match s.jobFile with
    | some js =>
        if js.pid ≠ 0 then
          if env.alive js.pid then
            (⟨false, some jobAlreadyRunningMsg, progress.jobId, none, none⟩, s)
          else
            startProceed env url quality genre
              (clear_progress (clear_job_state s))
        else startProceed env url quality genre s
    | none => startProceed env url quality genre s
  else startProceed env url quality genre s

/-- Response dictionary of cancel_job. -/
structure CancelResult where
  success : Bool
  error : Option String
  message : Option String
deriving DecidableEq, Repr

/-- cancel_job: fail with the no-active-job error unless the read
progress stage is in flight; otherwise signal the recorded pid
(best-effort, no modelled state effect), remove the recorded
workspace if known, and clear both records. -/
def cancel_job (env : SupEnv) (s : HostState) : CancelResult × HostState :=
  let progress := read_progress env.now s
  if midflight progress.stage then
    let s1 : HostState :=
      match s.jobFile with
      | some js =>
          match js.temp_dir with
          | some t => {s with dirs := s.dirs.filter (fun d => d ≠ t)}
          | none => s
      | none => s
    (⟨true, none, some "Job cancelled"⟩,
      {s1 with progressFile := none, jobFile := none})
  else
    (⟨false, some "No active job to cancel", none⟩, s)

/-- check_stale_job: no-op without a JobRecord or while its pid is
alive; for a dead pid, remove the recorded workspace if known, clear
the JobRecord, and overwrite the ProgressRecord with an interrupted
error when its read stage is in flight. -/
def check_stale_job (env : SupEnv) (s : HostState) : HostState :=
  match s.jobFile with
  | none => s
  | some js =>
      if js.pid ≠ 0 ∧ env.alive js.pid = true then s
      else
        let dirs1 :=
          match js.temp_dir with
          | some t => s.dirs.filter (fun d => d ≠ t)
          | none => s.dirs
        let s1 : HostState := {s with dirs := dirs1, jobFile := none}
        let progress := read_progress env.now s1
        if midflight progress.stage then
          {s1 with progressFile := some (mkProgress .error
            "Previous job was interrupted" 0 none progress.videoTitle
            progress.jobId none none none (some "Job interrupted") env.now)}
        else s1

/-- Quality preset table entry. overlap is stored in hundredths and
the time multiplier in tenths: both are only ever forwarded to the
external tools or multiplied into an integer estimate, and for the
magnitudes involved int(duration * multiplier) equals the integer
division (duration * tenths) / 10. -/
structure Preset where
  model : String
  shifts : Nat
  overlapHundredths : Nat
  cpu_limit : Nat
  timeMultTenths : Nat
  description : String
deriving DecidableEq, Repr

/-- QUALITY_PRESETS['fast']. -/
def fastPreset : Preset :=
  ⟨"htdemucs", 0, 25, 400, 4, "Fast processing, basic quality"⟩

/-- QUALITY_PRESETS['balanced']. -/
def balancedPreset : Preset :=
  ⟨"htdemucs", 5, 50, 400, 12, "Good balance of speed and quality"⟩

/-- QUALITY_PRESETS['high']. -/
def highPreset : Preset :=
  ⟨"htdemucs_ft", 10, 75, 500, 25, "Best quality, minimal stem bleeding"⟩

/-- QUALITY_PRESETS.get(quality, QUALITY_PRESETS['fast']). -/
def presetOf (quality : String) : Preset :=
  if quality = "fast" then fastPreset
  else if quality = "balanced" then balancedPreset
  else if quality = "high" then highPreset
  else fastPreset

/-- Genre mode table entry: stems to copy individually and combined
stems to mix (name, source stems). -/
structure GenreMode where
  stems : List String
  combine : List (String × List String)
  description : String
deriving DecidableEq, Repr

/-- GENRE_MODES['full']. -/
def fullMode : GenreMode :=
  ⟨["vocals", "drums", "bass", "other"], [], "All 4 stems"⟩

/-- GENRE_MODES['hiphop']. -/
def hiphopMode : GenreMode :=
  ⟨["vocals"], [("beat", ["drums", "bass", "other"])], "Vocals + Beat"⟩

/-- GENRE_MODES['rock']. -/
def rockMode : GenreMode :=
  ⟨["vocals", "drums", "bass"], [], "Vocals, Drums, Bass"⟩

/-- GENRE_MODES.get(genre, GENRE_MODES['full']). -/
def genreModeOf (genre : String) : GenreMode :=
  if genre = "full" then fullMode
  else if genre = "hiphop" then hiphopMode
  else if genre = "rock" then rockMode
  else fullMode

/-- Fallback processing-time estimate used when ffprobe yields no
duration: the dictionary get with default 120. -/
def estFallback (quality : String) : Nat :=
  if quality = "fast" then 90
  else if quality = "balanced" then 300
  else if quality = "high" then 600
  else 120

/-- Digits of a regex capture turned into the python int() value. -/
def natOfDigits (cs : List Char) : Nat :=
  cs.foldl (fun n c => n * 10 + (c.toNat - 48)) 0

/-- Scan of re.search for the pattern digits-percent-bar: find the
leftmost maximal digit run immediately followed by the two characters
percent and bar, returning its numeric value. Retrying inside a digit
run reproduces the same failed check, so the char-by-char scan agrees
with the leftmost-match semantics of re.search. -/
def scanPercent : List Char → Option Nat
  | [] => none
  | c :: rest =>
      if c.isDigit then
        let run := (c :: rest).takeWhile Char.isDigit
        let after := (c :: rest).dropWhile Char.isDigit
        if after.take 2 = ['%', '|'] then some (natOfDigits run)
        else scanPercent rest
      else scanPercent rest

/-- parse_demucs_progress: extract the tqdm percentage from one demucs
stderr line, if present. -/
def parse_demucs_progress (line : String) : Option Nat :=
  scanPercent line.data

/-- Rescale of line 506: overall = 10 + int(progress * 0.8). For the
integer percentages involved the float product never crosses an
integer boundary, so the value is 10 + (4 * progress) / 5 exactly. -/
def rescaleDemucs (p : Nat) : Nat :=
  10 + 4 * p / 5

/-- The demucs progress loop of lines 500-509 reduced to its data:
from the stderr lines and the running last_percent (initially 10),
the list of (parsed percentage, overall percent) pairs that get
written, a pair being written exactly when the parsed percentage
strictly exceeds last_percent, which is then updated to it. -/
def demucsReported : List String → Nat → List (Nat × Nat)
  | [], _ => []
  | line :: rest, last =>
      match parse_demucs_progress line with
      | some p =>
          if last < p then (p, rescaleDemucs p) :: demucsReported rest p
          else demucsReported rest last
      | none => demucsReported rest last

/-- The loop's final last_percent value, for characterizing which
later lines still trigger a write. -/
def lastAfter : List String → Nat → Nat
  | [], last => last
  | line :: rest, last =>
      match parse_demucs_progress line with
      | some p => if last < p then lastAfter rest p else lastAfter rest last
      | none => lastAfter rest last

/-- The ProgressRecord written for one reported demucs percentage. -/
def loopWrite (jobId title quality genre : String) (est : Option Nat)
    (now : Int) (w : Nat × Nat) : ProgressRecord :=
  mkProgress .processing ("Separating stems... " ++ toString w.1 ++ "%") w.2
    est (some title) (some jobId) (some "download_stems") (some quality)
    (some genre) none now

/-- All ProgressRecords written by the demucs progress loop. -/
def workerLoopWrites (jobId title quality genre : String) (est : Option Nat)
    (now : Int) (lines : List String) : List ProgressRecord :=
  (demucsReported lines 10).map (loopWrite jobId title quality genre est now)

/-- Display names of stem_mapping; the tables only ever request the
four mapped stems, so the catch-all branch is unreachable from the
shipped genre modes. -/
def stemDisplay : String → String
  | "vocals" => "Vocals"
  | "drums" => "Drums"
  | "bass" => "Bass"
  | "other" => "Other"
  | st => st

/-- str.title() restricted to the single lowercase words the combine
table uses. -/
def pyTitleCase (s : String) : String :=
  (s.take 1).toUpper ++ s.drop 1

/-- Environment of one Worker Process run: outcomes of every external
interaction of run_stem_separation_background. Except values model a
python exception raised by the step, caught by the worker's top-level
try/except. -/
structure WorkerEnv where
  /-- DEMUCS_PYTHON.is_file() and os.access(..., X_OK). -/
  demucsAvailable : Bool
  /-- Name returned by tempfile.mkdtemp. -/
  tempDirName : String
  /-- os.getpid() inside the worker. -/
  workerPid : Nat
  /-- time.time() (claims are insensitive to per-write clock drift). -/
  now : Int
  /-- subprocess.run of the yt-dlp download: raised exception, or
  (returncode, stderr text). -/
  downloadResult : Except String (Int × String)
  /-- Whether the glob for audio.* finds the downloaded file. -/
  wavFound : Bool
  /-- get_audio_duration (never raises; none on failure). -/
  duration : Option Nat
  /-- The demucs run: raised exception, or (stderr lines consumed by
  the progress loop, returncode). -/
  demucsRun : Except String (List String × Int)
  /-- Whether a stems directory is found (directly or by the rglob
  fallback scan). -/
  stemsDirFound : Bool
  /-- Stem names (keys of stem_files) found in the stems directory. -/
  stemsPresent : List String
  /-- File suffix of the produced stem files (demucs emits .mp3). -/
  stemExt : String
  /-- Whether combine_stems (the ffmpeg mix) succeeds. -/
  combineOk : Bool

/-- Error-exit path shared by every failure inside the worker's try
block: write the error record, remove the workspace, clear the
JobRecord. -/
def workerFail (temp jobId title quality genre : String) (now : Int)
    (prev : List ProgressRecord) (msg errTxt : String) (s1 : HostState) :
    List ProgressRecord × HostState :=
  let w := mkProgress .error msg 0 none (some title) (some jobId)
    (some "download_stems") (some quality) (some genre) (some errTxt) now
  let s2 : HostState := {s1 with dirs := s1.dirs.filter (fun d => d ≠ temp)}
  (prev ++ [w], {s2 with progressFile := some w, jobFile := none})

/-- run_stem_separation_background: the Worker Process pipeline.
Returns the ordered list of ProgressRecord writes the run performs
together with the final persistent state. -/
def run_stem_separation_background (env : WorkerEnv)
    (jobId url quality genre title : String) (s : HostState) :
    List ProgressRecord × HostState :=
  let preset := presetOf quality
  let mode := genreModeOf genre
  if env.demucsAvailable = false then
    let w := mkProgress .error
      "Demucs not found. Run install.sh to set up the virtual environment."
      0 none (some title) (some jobId) (some "download_stems") (some quality)
      (some genre) (some "Demucs not installed - run install.sh") env.now
    ([w], {s with progressFile := some w, jobFile := none})
  else
    let temp := env.tempDirName
    let sd : HostState := {s with dirs := temp :: s.dirs}
    let s0 : HostState := {sd with jobFile := some ⟨jobId, env.workerPid,
      some temp, title, "download_stems", quality, genre, url, env.now⟩}
    let w1 := mkProgress .downloading "Downloading audio from YouTube..." 5
      none (some title) (some jobId) (some "download_stems") (some quality)
      (some genre) none env.now
    let s1 : HostState := {s0 with progressFile := some w1}
    match env.downloadResult with
    | .error e => workerFail temp jobId title quality genre env.now [w1] e e s1
    | .ok (rc, errText) =>
        if rc ≠ 0 then
          workerFail temp jobId title quality genre env.now [w1]
            ("Download failed: " ++ errText) errText s1
        else if env.wavFound = false then
          workerFail temp jobId title quality genre env.now [w1]
            "Downloaded audio file not found" "Audio file not found" s1
        else
          let est : Option Nat := some (match env.duration with
            | some d => d * preset.timeMultTenths / 10 + 30
            | none => estFallback quality)
          let w2 := mkProgress .processing "Separating stems with AI..." 10
            est (some title) (some jobId) (some "download_stems")
            (some quality) (some genre) none env.now
          let s2 : HostState := {s1 with progressFile := some w2}
          match env.demucsRun with
          | .error e =>
              workerFail temp jobId title quality genre env.now [w1, w2] e e s2
          | .ok (lines, drc) =>
              let loopWs := workerLoopWrites jobId title quality genre est
                env.now lines
              let pre := [w1, w2] ++ loopWs
              let s3 : HostState := {s2 with progressFile :=
                match loopWs.getLast? with
                | some wl => some wl
                | none => s2.progressFile}
              if drc ≠ 0 then
                -- stderr was already consumed to EOF by the loop, so the
                -- diagnostic read back for the error field is empty
                workerFail temp jobId title quality genre env.now pre
                  "Stem separation failed" "" s3
              else
                let w3 := mkProgress .finalizing "Organizing stem files..." 92
                  none (some title) (some jobId) (some "download_stems")
                  (some quality) (some genre) none env.now
                let pre2 := pre ++ [w3]
                let s4 : HostState := {s3 with progressFile := some w3}
                if env.stemsDirFound = false then
                  workerFail temp jobId title quality genre env.now pre2
                    "Stem files not found after separation"
                    "Output files not found" s4
                else
                  let copiedStems := mode.stems.filter
                    (fun st => env.stemsPresent.contains st)
                  let copiedFiles := copiedStems.map (fun st =>
                    title ++ " - " ++ stemDisplay st ++ env.stemExt)
                  let combinedFiles := mode.combine.foldl (fun acc c =>
                    let sources := c.2.filter
                      (fun st => env.stemsPresent.contains st)
                    if sources.isEmpty = false ∧ env.combineOk = true then
                      acc ++ [title ++ " - " ++ pyTitleCase c.1 ++ ".mp3"]
                    else acc) []
                  let copied := copiedFiles ++ combinedFiles
                  let s4a : HostState :=
                    {s4 with dirs := s4.dirs.filter (fun d => d ≠ temp)}
                  let s5 : HostState := {s4a with jobFile := none}
                  if copied.isEmpty then
                    let w := mkProgress .error "No stem files were created" 0
                      none (some title) (some jobId) (some "download_stems")
                      (some quality) (some genre) (some "No output files")
                      env.now
                    (pre2 ++ [w], {s5 with progressFile := some w})
                  else
                    let w := mkProgress .complete
                      ("Created " ++ toString copied.length ++ " stem files")
                      100 none (some title) (some jobId)
                      (some "download_stems") (some quality) (some genre)
                      none env.now
                    (pre2 ++ [w], {s5 with progressFile := some w})

/-! Claim C1: a startJob while a live job is registered is rejected
without touching persisted state. -/

/-- C1: at most one job is concurrently active: a startJob request
made while the read ProgressRecord stage is downloading, processing
or finalizing and the JobRecord's pid refers to a live OS process
returns success false with the existing job's jobId and leaves the
whole persisted state (ProgressRecord, JobRecord, workspaces)
unchanged. -/
theorem C1_single_active_job (env : SupEnv) (url quality genre : String)
    (s : HostState) (js : JobState)
    (hmid : midflight (read_progress env.now s).stage = true)
    (hjf : s.jobFile = some js) (hpid : js.pid ≠ 0)
    (halive : env.alive js.pid = true) :
    start_stems_job env url quality genre s =
      (⟨false, some jobAlreadyRunningMsg, (read_progress env.now s).jobId,
        none, none⟩, s) := by
  unfold start_stems_job
  simp [hjf, hmid, hpid, halive]

/-- Environment for the C1 witness: pid 5 is alive. -/
def c1env : SupEnv := ⟨1000, fun p => p == 5, some "T", 99⟩

/-- State for the C1 witness: a fresh processing record and a
registered job with pid 5. -/
def c1state : HostState :=
  ⟨some (mkProgress .processing "Separating stems with AI..." 50 none
      (some "T") (some "job_7") (some "download_stems") (some "fast")
      (some "full") none 1000),
    some ⟨"job_7", 5, none, "T", "download_stems", "fast", "full", "u", 900⟩,
    []⟩

/-- Witness for C1 at a concrete midflight state with a live pid. -/
theorem C1_single_active_job_witness :
    start_stems_job c1env "u2" "fast" "full" c1state =
      (⟨false, some jobAlreadyRunningMsg, some "job_7", none, none⟩,
        c1state) := by
  have h := C1_single_active_job c1env "u2" "fast" "full" c1state
    ⟨"job_7", 5, none, "T", "download_stems", "fast", "full", "u", 900⟩
    (by decide) rfl (by decide) (by decide)
  simpa using h

/-! Claim C2: staleness reinterpretation on read. The code only
reinterprets stage processing (line 137); a downloading or finalizing
record is returned unchanged no matter how old, refuting the claim as
stated. -/

/-- An old downloading record for the C2 counterexample. -/
def c2state : HostState :=
  ⟨some (mkProgress .downloading "Downloading audio from YouTube..." 5 none
    none none none none none none 0), none, []⟩

/-- Counterexample to C2: a stored downloading record whose age (1000
seconds) exceeds 600 is returned by read with stage downloading, not
stale, so the claimed reinterpretation of downloading and finalizing
records does not happen. -/
theorem C2_counterexample :
    (1000 : Int) - 0 > 600 ∧
    (read_progress_run 1000 c2state).1.stage = Stage.downloading ∧
    Stage.downloading ≠ Stage.stale := by
  refine ⟨by decide, ?_, by decide⟩
  rfl

/-- C2 amended: for every stored ProgressRecord whose stage is
processing and whose timestamp is more than 600 seconds older than
the read instant, read returns the record with stage reinterpreted as
stale (and the stalled message), and the read never mutates the
underlying stored state; downloading and finalizing records are never
reinterpreted. -/
theorem C2_stale_reinterpretation (now : Int) (s : HostState)
    (r : ProgressRecord) (hr : s.progressFile = some r)
    (hst : r.stage = Stage.processing)
    (hage : now - r.timestamp.getD 0 > 600) :
    (read_progress_run now s).1 =
      {{r with stage := Stage.stale} with
        message := "Job appears to have stalled"} ∧
    (read_progress_run now s).2 = s := by
  unfold read_progress_run read_progress
  simp [hr, hst, hage]

/-- Witness for C2 amended: an old processing record reads as stale
with the state untouched. -/
theorem C2_stale_reinterpretation_witness :
    (read_progress_run 1000
        ⟨some (mkProgress .processing "Separating stems with AI..." 50 none
          none none none none none none 0), none, []⟩).1 =
      mkProgress .stale "Job appears to have stalled" 50 none
        none none none none none none 0 ∧
    (read_progress_run 1000
        ⟨some (mkProgress .processing "Separating stems with AI..." 50 none
          none none none none none none 0), none, []⟩).2 =
      ⟨some (mkProgress .processing "Separating stems with AI..." 50 none
        none none none none none none 0), none, []⟩ := by
  have h := C2_stale_reinterpretation 1000
    ⟨some (mkProgress .processing "Separating stems with AI..." 50 none
      none none none none none none 0), none, []⟩
    (mkProgress .processing "Separating stems with AI..." 50 none
      none none none none none none 0)
    rfl rfl (by decide)
  simpa [mkProgress] using h

/-! Claim C3: startup reconciliation. The code never clears the
ProgressRecord in the dead-process branch: it clears only the
JobRecord and conditionally overwrites the ProgressRecord, refuting
the claimed clearing of both records. -/

/-- Environment for the C3 counterexample: no pid is alive. -/
def c3env : SupEnv := ⟨1000, fun _ => false, none, 0⟩

/-- A terminal complete record left behind with a dead registered
job, for the C3 counterexample. -/
def c3rec : ProgressRecord :=
  mkProgress .complete "Created 4 stem files" 100 none (some "T")
    (some "job_7") (some "download_stems") (some "fast") (some "full")
    none 900

/-- State for the C3 counterexample. -/
def c3state : HostState :=
  ⟨some c3rec,
    some ⟨"job_7", 5, none, "T", "download_stems", "fast", "full", "u", 900⟩,
    []⟩

/-- Counterexample to C3: with a dead registered process, the
reconciliation clears the JobRecord but leaves the stored
ProgressRecord in place (here a complete record survives), so it does
not clear both persisted records as claimed. -/
theorem C3_counterexample :
    (check_stale_job c3env c3state).jobFile = none ∧
    (check_stale_job c3env c3state).progressFile = some c3rec := by
  constructor <;> rfl

/-- C3 amended: on every Supervisor invocation the startup
reconciliation satisfies: with no JobRecord it is a no-op; with a
JobRecord whose pid is nonzero and alive it is a no-op; with a dead
(or zero) recorded pid it removes the recorded workspace if known,
clears the JobRecord only - the ProgressRecord is never cleared - and
exactly when the progress stage as read (after staleness
reinterpretation) is downloading, processing or finalizing it
overwrites the ProgressRecord with stage error, message
"Previous job was interrupted" and error text "Job interrupted",
echoing the read record's jobId and videoTitle; otherwise the
ProgressRecord is left untouched. -/
theorem C3_startup_reconciliation (env : SupEnv) (s : HostState) :
    (s.jobFile = none → check_stale_job env s = s) ∧
    (∀ js, s.jobFile = some js → js.pid ≠ 0 → env.alive js.pid = true →
      check_stale_job env s = s) ∧
    (∀ js, s.jobFile = some js → ¬(js.pid ≠ 0 ∧ env.alive js.pid = true) →
      (check_stale_job env s).jobFile = none ∧
      (∀ t, js.temp_dir = some t → t ∉ (check_stale_job env s).dirs) ∧
      (midflight (read_progress env.now s).stage = true →
        (check_stale_job env s).progressFile =
          some (mkProgress .error "Previous job was interrupted" 0 none
            (read_progress env.now s).videoTitle
            (read_progress env.now s).jobId none none none
            (some "Job interrupted") env.now)) ∧
      (midflight (read_progress env.now s).stage = false →
        (check_stale_job env s).progressFile = s.progressFile)) := by
  refine ⟨fun h => by simp [check_stale_job, h], fun js hjs hpid halive => by
    simp [check_stale_job, hjs, hpid, halive], fun js hjs hdead => ?_⟩
  have hread : ∀ dirs1,
      read_progress env.now {s with dirs := dirs1, jobFile := none} =
        read_progress env.now s := by
    intro dirs1; unfold read_progress; rfl
  unfold check_stale_job
  simp only [hjs, if_neg hdead, hread]
  refine ⟨?_, ?_, ?_, ?_⟩
  · cases htd : js.temp_dir <;>
      cases hm : midflight (read_progress env.now s).stage <;>
        simp [htd, hm]
  · intro t htd
    cases hm : midflight (read_progress env.now s).stage <;>
      simp [htd, hm, List.mem_filter]
  · intro hm
    cases htd : js.temp_dir <;> simp [htd, hm]
  · intro hm
    cases htd : js.temp_dir <;> simp [htd, hm]

/-- Witness for C3 amended, exercising the dead-process branch with a
midflight processing record and a known workspace: the workspace is
removed, the JobRecord cleared, and the ProgressRecord overwritten
with the interruption error. -/
theorem C3_startup_reconciliation_witness :
    (check_stale_job c3env
        ⟨some (mkProgress .processing "Separating stems with AI..." 50 none
          (some "T") (some "job_7") (some "download_stems") (some "fast")
          (some "full") none 900),
        some ⟨"job_7", 5, some "tmpws", "T", "download_stems", "fast",
          "full", "u", 900⟩, ["tmpws"]⟩).jobFile = none ∧
    "tmpws" ∉ (check_stale_job c3env
        ⟨some (mkProgress .processing "Separating stems with AI..." 50 none
          (some "T") (some "job_7") (some "download_stems") (some "fast")
          (some "full") none 900),
        some ⟨"job_7", 5, some "tmpws", "T", "download_stems", "fast",
          "full", "u", 900⟩, ["tmpws"]⟩).dirs ∧
    (check_stale_job c3env
        ⟨some (mkProgress .processing "Separating stems with AI..." 50 none
          (some "T") (some "job_7") (some "download_stems") (some "fast")
          (some "full") none 900),
        some ⟨"job_7", 5, some "tmpws", "T", "download_stems", "fast",
          "full", "u", 900⟩, ["tmpws"]⟩).progressFile =
      some (mkProgress .error "Previous job was interrupted" 0 none
        (some "T") (some "job_7") none none none
        (some "Job interrupted") 1000) := by
  have h := (C3_startup_reconciliation c3env
      ⟨some (mkProgress .processing "Separating stems with AI..." 50 none
        (some "T") (some "job_7") (some "download_stems") (some "fast")
        (some "full") none 900),
      some ⟨"job_7", 5, some "tmpws", "T", "download_stems", "fast",
        "full", "u", 900⟩, ["tmpws"]⟩).2.2
    ⟨"job_7", 5, some "tmpws", "T", "download_stems", "fast", "full",
      "u", 900⟩ rfl (by decide)
  exact ⟨h.1, h.2.1 "tmpws" rfl, by simpa using h.2.2.1 (by rfl)⟩

/-! Claim C4: cancelJob idempotence. -/

/-- C4: a successful cancelJob (one made while the read stage is in
flight) leaves both persisted records cleared, so an immediately
following getProgress returns the default idle record (idle, Ready,
0) and an immediately following second cancelJob fails with the
no-active-job error and changes no state. -/
theorem C4_cancel_idempotent (env env2 env3 : SupEnv) (s : HostState)
    (h : (cancel_job env s).1.success = true) :
    (cancel_job env s).2.progressFile = none ∧
    (cancel_job env s).2.jobFile = none ∧
    read_progress env2.now (cancel_job env s).2 = defaultProgress ∧
    cancel_job env3 (cancel_job env s).2 =
      (⟨false, some "No active job to cancel", none⟩,
        (cancel_job env s).2) := by
  by_cases hm : midflight (read_progress env.now s).stage = true
  · have hstate : (cancel_job env s).2.progressFile = none ∧
        (cancel_job env s).2.jobFile = none := by
      unfold cancel_job
      simp only [hm, if_true]
      cases hjf : s.jobFile with
      | none => simp
      | some js => cases js.temp_dir <;> simp
    have hread : ∀ n : Int,
        read_progress n (cancel_job env s).2 = defaultProgress := by
      intro n; unfold read_progress; simp [hstate.1]
    have hcancel2 : ∀ (e : SupEnv) (s0 : HostState), s0.progressFile = none →
        cancel_job e s0 =
          (⟨false, some "No active job to cancel", none⟩, s0) := by
      intro e s0 h0
      have hr : read_progress e.now s0 = defaultProgress := by
        unfold read_progress; simp [h0]
      unfold cancel_job
      rw [hr]
      simp [defaultProgress, midflight]
    exact ⟨hstate.1, hstate.2, hread env2.now,
      hcancel2 env3 (cancel_job env s).2 hstate.1⟩
  · exfalso
    simp [cancel_job, hm] at h

/-- State for the C4 witness: a fresh processing record with a
registered job owning a workspace. -/
def c4state : HostState :=
  ⟨some (mkProgress .processing "Separating stems with AI..." 50 none
      (some "T") (some "job_7") (some "download_stems") (some "fast")
      (some "full") none 1000),
    some ⟨"job_7", 5, some "tmpws", "T", "download_stems", "fast", "full",
      "u", 900⟩, ["tmpws"]⟩

/-- Witness for C4 at a concrete midflight state. -/
theorem C4_cancel_idempotent_witness :
    (cancel_job c1env c4state).2.progressFile = none ∧
    (cancel_job c1env c4state).2.jobFile = none ∧
    read_progress 2000 (cancel_job c1env c4state).2 = defaultProgress ∧
    cancel_job ⟨3000, fun _ => false, none, 0⟩ (cancel_job c1env c4state).2 =
      (⟨false, some "No active job to cancel", none⟩,
        (cancel_job c1env c4state).2) := by
  have h := C4_cancel_idempotent c1env ⟨2000, fun p => p == 5, none, 0⟩
    ⟨3000, fun _ => false, none, 0⟩ c4state (by rfl)
  exact h

/-! Claim C9: the accept path of startJob. The call is a pure
function of the Supervisor environment that never invokes the
pipeline (run_stem_separation_background), so it returns before and
independently of the worker's run. -/

/-- C9: when startJob accepts a request (no live job found, i.e. the
call succeeds), it persists a JobRecord carrying the spawned worker's
pid with the workspace path absent, writes a ProgressRecord at stage
downloading with percent 0, and returns success with the
time-derived jobId job_<t> and the resolved title (or the
placeholder "stems" when title resolution fails); the function never
invokes the pipeline, so the response never blocks on it. -/
theorem C9_start_accept (env : SupEnv) (url quality genre : String)
    (s : HostState)
    (h : (start_stems_job env url quality genre s).1.success = true) :
    (start_stems_job env url quality genre s).1 =
      ⟨true, none, some ("job_" ++ toString env.now),
        some (env.titleResult.getD "stems"),
        some "Stem separation started"⟩ ∧
    (start_stems_job env url quality genre s).2.jobFile =
      some ⟨"job_" ++ toString env.now, env.spawnPid, none,
        env.titleResult.getD "stems", "download_stems", quality, genre,
        url, env.now⟩ ∧
    (start_stems_job env url quality genre s).2.progressFile =
      some (mkProgress .downloading "Starting..." 0 none
        (some (env.titleResult.getD "stems"))
        (some ("job_" ++ toString env.now)) (some "download_stems")
        (some quality) (some genre) none env.now) := by
  have hproceed : ∀ s0 : HostState,
      start_stems_job env url quality genre s =
        startProceed env url quality genre s0 →
      (start_stems_job env url quality genre s).1 =
        ⟨true, none, some ("job_" ++ toString env.now),
          some (env.titleResult.getD "stems"),
          some "Stem separation started"⟩ ∧
      (start_stems_job env url quality genre s).2.jobFile =
        some ⟨"job_" ++ toString env.now, env.spawnPid, none,
          env.titleResult.getD "stems", "download_stems", quality, genre,
          url, env.now⟩ ∧
      (start_stems_job env url quality genre s).2.progressFile =
        some (mkProgress .downloading "Starting..." 0 none
          (some (env.titleResult.getD "stems"))
          (some ("job_" ++ toString env.now)) (some "download_stems")
          (some quality) (some genre) none env.now) := by
    intro s0 heq
    rw [heq]
    unfold startProceed
    simp
  by_cases hm : midflight (read_progress env.now s).stage = true
  · cases hjf : s.jobFile with
    | none =>
        exact hproceed s (by unfold start_stems_job; simp [hm, hjf])
    | some js =>
        by_cases hpid : js.pid ≠ 0
        · by_cases halive : env.alive js.pid = true
          · exfalso
            simp [start_stems_job, hm, hjf, hpid, halive] at h
          · exact hproceed (clear_progress (clear_job_state s))
              (by unfold start_stems_job; simp [hm, hjf, hpid, halive])
        · exact hproceed s
            (by unfold start_stems_job; simp [hm, hjf, hpid])
  · exact hproceed s (by unfold start_stems_job; simp [hm])

/-- Witness for C9 on an idle system with a resolved title. -/
theorem C9_start_accept_witness :
    (start_stems_job c1env "u3" "fast" "full" ⟨none, none, []⟩).1 =
      ⟨true, none, some "job_1000", some "T",
        some "Stem separation started"⟩ ∧
    (start_stems_job c1env "u3" "fast" "full" ⟨none, none, []⟩).2.jobFile =
      some ⟨"job_1000", 99, none, "T", "download_stems", "fast", "full",
        "u3", 1000⟩ ∧
    (start_stems_job c1env "u3" "fast" "full"
        ⟨none, none, []⟩).2.progressFile =
      some (mkProgress .downloading "Starting..." 0 none (some "T")
        (some "job_1000") (some "download_stems") (some "fast")
        (some "full") none 1000) := by
  have h := C9_start_accept c1env "u3" "fast" "full" ⟨none, none, []⟩ (by rfl)
  simpa using h

/-! Lemmas about the demucs progress loop. -/

/-- Every pair the loop writes has parsed value above the running
last_percent it was compared against, overall percent equal to the
rescale of its parsed value, and parsed value coming from some line. -/
theorem demucsReported_mem (lines : List String) (last : Nat) (w : Nat × Nat)
    (hw : w ∈ demucsReported lines last) :
    last < w.1 ∧ w.2 = rescaleDemucs w.1 ∧
      ∃ l ∈ lines, parse_demucs_progress l = some w.1 := by
  induction lines generalizing last with
  | nil => simp [demucsReported] at hw
  | cons line rest ih =>
      cases hp : parse_demucs_progress line with
      | none =>
          simp only [demucsReported, hp] at hw
          obtain ⟨h1, h2, l, hl, hpl⟩ := ih last hw
          exact ⟨h1, h2, l, List.mem_cons_of_mem _ hl, hpl⟩
      | some p =>
          by_cases hlt : last < p
          · simp only [demucsReported, hp, if_pos hlt] at hw
            rcases List.mem_cons.mp hw with rfl | hw2
            · exact ⟨hlt, rfl, line, List.mem_cons_self _ _, hp⟩
            · obtain ⟨h1, h2, l, hl, hpl⟩ := ih p hw2
              exact ⟨hlt.trans h1, h2, l, List.mem_cons_of_mem _ hl, hpl⟩
          · simp only [demucsReported, hp, if_neg hlt] at hw
            obtain ⟨h1, h2, l, hl, hpl⟩ := ih last hw
            exact ⟨h1, h2, l, List.mem_cons_of_mem _ hl, hpl⟩

/-- The parsed values the loop writes are strictly increasing: no
regression and no duplicate is ever written. -/
theorem demucsReported_chain (lines : List String) (last : Nat) :
    List.Chain' (fun a b : Nat × Nat => a.1 < b.1)
      (demucsReported lines last) := by
  induction lines generalizing last with
  | nil => simp [demucsReported]
  | cons line rest ih =>
      cases hp : parse_demucs_progress line with
      | none => simp only [demucsReported, hp]; exact ih last
      | some p =>
          by_cases hlt : last < p
          · simp only [demucsReported, hp, if_pos hlt]
            refine List.chain'_cons'.mpr ⟨?_, ih p⟩
            intro y hy
            exact (demucsReported_mem rest p y (List.mem_of_mem_head? hy)).1
          · simp only [demucsReported, hp, if_neg hlt]; exact ih last

/-- The rescale into the 10-90 band is monotone. -/
theorem rescaleDemucs_mono {a b : Nat} (h : a ≤ b) :
    rescaleDemucs a ≤ rescaleDemucs b := by
  unfold rescaleDemucs
  have h4 : 4 * a ≤ 4 * b := Nat.mul_le_mul_left 4 h
  have := Nat.div_le_div_right (c := 5) h4
  omega

/-- The overall percents the loop writes are monotone. -/
theorem demucsReported_chain_snd (lines : List String) (last : Nat) :
    List.Chain' (fun a b : Nat × Nat => a.2 ≤ b.2)
      (demucsReported lines last) := by
  induction lines generalizing last with
  | nil => simp [demucsReported]
  | cons line rest ih =>
      cases hp : parse_demucs_progress line with
      | none => simp only [demucsReported, hp]; exact ih last
      | some p =>
          by_cases hlt : last < p
          · simp only [demucsReported, hp, if_pos hlt]
            refine List.chain'_cons'.mpr ⟨?_, ih p⟩
            intro y hy
            have hm := demucsReported_mem rest p y (List.mem_of_mem_head? hy)
            have := rescaleDemucs_mono (le_of_lt hm.1)
            simpa [hm.2.1] using this
          · simp only [demucsReported, hp, if_neg hlt]; exact ih last

/-- Splitting the stream splits the loop's writes around the running
last_percent. -/
theorem demucsReported_append (xs ys : List String) (last : Nat) :
    demucsReported (xs ++ ys) last =
      demucsReported xs last ++ demucsReported ys (lastAfter xs last) := by
  induction xs generalizing last with
  | nil => simp [demucsReported, lastAfter]
  | cons x rest ih =>
      simp only [List.cons_append]
      cases hp : parse_demucs_progress x with
      | none =>
          simp only [demucsReported, lastAfter, hp]
          exact ih last
      | some p =>
          by_cases hlt : last < p
          · simp only [demucsReported, lastAfter, hp, if_pos hlt,
              List.cons_append]
            rw [ih p]
          · simp only [demucsReported, lastAfter, hp, if_neg hlt]
            exact ih last

/-- The loop's final last_percent is the running maximum of the
initial threshold and the written parsed values. -/
theorem lastAfter_eq_foldl (lines : List String) (last : Nat) :
    lastAfter lines last =
      (demucsReported lines last).foldl (fun a w => max a w.1) last := by
  induction lines generalizing last with
  | nil => simp [lastAfter, demucsReported]
  | cons line rest ih =>
      cases hp : parse_demucs_progress line with
      | none =>
          simp only [lastAfter, demucsReported, hp]
          exact ih last
      | some p =>
          by_cases hlt : last < p
          · simp only [lastAfter, demucsReported, hp, if_pos hlt,
              List.foldl_cons]
            rw [ih p, Nat.max_eq_right (le_of_lt hlt)]
          · simp only [lastAfter, demucsReported, hp, if_neg hlt]
            exact ih last

/-! Claim C5: which engine percentages produce a processing write.
The loop's threshold last_percent starts at 10 (the overall percent
of the preceding write), so a parsed percentage of at most 10 is
dropped even when nothing was previously reported, refuting the
claimed "written iff it strictly exceeds every previously reported
percentage". -/

/-- Counterexample to C5: the first stream line parses to 5, which
strictly exceeds every previously reported percentage (there are
none), yet no progress write is produced because the threshold starts
at 10. -/
theorem C5_counterexample :
    parse_demucs_progress " 5%| starting" = some 5 ∧
    demucsReported [" 5%| starting"] 10 = [] := by
  constructor <;> rfl

/-- C5 amended: during separation, a write is produced for a parsed
percentage exactly when it strictly exceeds the maximum of 10 (the
initial threshold, the overall percent of the preceding processing
write) and all previously written parsed percentages; each written
overall percent is the parsed 0-100 value rescaled into the 10-90
band (10 + floor(0.8 * parsed)); written parsed values are strictly
increasing, so nothing regressing or duplicate is ever written. -/
theorem C5_progress_reporting (lines : List String) (l : String) :
    (∀ w ∈ demucsReported lines 10, 10 < w.1 ∧ w.2 = rescaleDemucs w.1) ∧
    List.Chain' (fun a b : Nat × Nat => a.1 < b.1)
      (demucsReported lines 10) ∧
    demucsReported (lines ++ [l]) 10 =
      demucsReported lines 10 ++
        (match parse_demucs_progress l with
         | some p =>
             if (demucsReported lines 10).foldl (fun a w => max a w.1) 10 < p
             then [(p, rescaleDemucs p)] else []
         | none => []) := by
  refine ⟨fun w hw => ⟨(demucsReported_mem lines 10 w hw).1,
    (demucsReported_mem lines 10 w hw).2.1⟩,
    demucsReported_chain lines 10, ?_⟩
  rw [demucsReported_append, lastAfter_eq_foldl]
  cases hp : parse_demucs_progress l with
  | none => simp [demucsReported, hp]
  | some p =>
      by_cases hlt :
          (demucsReported lines 10).foldl (fun a w => max a w.1) 10 < p
      · simp [demucsReported, hp, hlt]
      · simp [demucsReported, hp, hlt]

/-! Lemmas about the worker's loop writes and chains. -/

/-- Every record the demucs loop writes has stage processing, overall
percent strictly above 10, and percent equal to the rescale of a
parsed value of some stream line. -/
theorem mem_workerLoopWrites {jobId title quality genre : String}
    {est : Option Nat} {now : Int} {lines : List String}
    {x : ProgressRecord}
    (hx : x ∈ workerLoopWrites jobId title quality genre est now lines) :
    x.stage = Stage.processing ∧ 10 < x.percent ∧
      ∃ p, 10 < p ∧ x.percent = rescaleDemucs p ∧
        ∃ l ∈ lines, parse_demucs_progress l = some p := by
  obtain ⟨w, hw, rfl⟩ := List.mem_map.mp hx
  obtain ⟨h1, h2, hl⟩ := demucsReported_mem lines 10 w hw
  refine ⟨rfl, ?_, w.1, h1, h2, hl⟩
  show 10 < w.2
  rw [h2]
  unfold rescaleDemucs
  omega

/-- Rescaled engine percentages stay at most 90 for engine values at
most 100. -/
theorem rescaleDemucs_le_90 {p : Nat} (hp : p ≤ 100) :
    rescaleDemucs p ≤ 90 := by
  unfold rescaleDemucs
  omega

/-- Overall percents of the loop's writes are monotone. -/
theorem chain'_percent_workerLoopWrites (jobId title quality genre : String)
    (est : Option Nat) (now : Int) (lines : List String) :
    List.Chain' (fun a b : ProgressRecord => a.percent ≤ b.percent)
      (workerLoopWrites jobId title quality genre est now lines) := by
  unfold workerLoopWrites
  rw [List.chain'_map]
  exact demucsReported_chain_snd lines 10

/-- Appending two chains stays a chain when every element of the
first relates to every element of the second. -/
theorem chain'_append_pairwise {α : Type _} {R : α → α → Prop}
    {l1 l2 : List α} (h1 : List.Chain' R l1) (h2 : List.Chain' R l2)
    (hx : ∀ x ∈ l1, ∀ y ∈ l2, R x y) : List.Chain' R (l1 ++ l2) := by
  apply h1.append h2
  intro x hxl y hyl
  exact hx x (List.mem_of_mem_getLast? hxl) y (List.mem_of_mem_head? hyl)

/-! Claim C6 and C7 preliminaries: the write relations of the
monotonicity claim. -/

/-- The stage part of the C6 relation: the stage rank never drops
between consecutive writes. -/
def stageOk (a b : ProgressRecord) : Prop :=
  stageRank a.stage ≤ stageRank b.stage

/-- The percent part of the C6 relation, amended: percent never drops
between consecutive writes except into an error write (error writes
carry the default percent 0). -/
def percentOk (a b : ProgressRecord) : Prop :=
  b.stage = Stage.error ∨ a.percent ≤ b.percent

/-- Chains for the worker's central write block
[downloading 5, processing 10] ++ loop writes ++ terminal tail. -/
theorem worker_block_chains (jobId title quality genre : String)
    (est : Option Nat) (now : Int) (lines : List String)
    (h100 : ∀ l ∈ lines, (parse_demucs_progress l).getD 0 ≤ 100)
    (w1 w2 : ProgressRecord)
    (h1s : w1.stage = Stage.downloading) (h1p : w1.percent = 5)
    (h2s : w2.stage = Stage.processing) (h2p : w2.percent = 10)
    (tail : List ProgressRecord)
    (htS : List.Chain' stageOk tail) (htP : List.Chain' percentOk tail)
    (ht : ∀ y ∈ tail, 3 ≤ stageRank y.stage ∧
      (y.stage = Stage.error ∨ 92 ≤ y.percent)) :
    List.Chain' stageOk
      ([w1, w2] ++
        (workerLoopWrites jobId title quality genre est now lines ++ tail)) ∧
    List.Chain' percentOk
      ([w1, w2] ++
        (workerLoopWrites jobId title quality genre est now lines ++ tail))
    := by
  have hmemL : ∀ x ∈ workerLoopWrites jobId title quality genre est now lines,
      x.stage = Stage.processing ∧ 10 < x.percent ∧ x.percent ≤ 90 := by
    intro x hx
    obtain ⟨hs, hp, p, hp10, hre, l, hl, hpl⟩ := mem_workerLoopWrites hx
    refine ⟨hs, hp, ?_⟩
    have h1 := h100 l hl
    rw [hpl] at h1
    simp only [Option.getD_some] at h1
    rw [hre]
    exact rescaleDemucs_le_90 h1
  constructor
  · refine chain'_append_pairwise ?_ (chain'_append_pairwise ?_ htS ?_) ?_
    · simp [List.chain'_cons, List.chain'_singleton, stageOk, h1s, h2s,
        stageRank]
    · unfold workerLoopWrites
      rw [List.chain'_map]
      exact List.Chain'.imp (fun a b _ => Nat.le_refl _)
        (demucsReported_chain lines 10)
    · intro x hx y hy
      have h3 := (ht y hy).1
      unfold stageOk
      refine le_trans ?_ h3
      rw [(hmemL x hx).1]
      norm_num [stageRank]
    · intro x hx y hy
      unfold stageOk
      have hxr : stageRank x.stage ≤ 2 := by
        rcases List.mem_cons.mp hx with rfl | hx2
        · rw [h1s]; norm_num [stageRank]
        · rcases List.mem_cons.mp hx2 with rfl | hx3
          · rw [h2s]; exact Nat.le_refl _
          · simp at hx3
      rcases List.mem_append.mp hy with hyL | hyt
      · refine le_trans hxr ?_
        rw [(hmemL y hyL).1]
        exact Nat.le_refl _
      · exact le_trans hxr (le_trans (by norm_num) (ht y hyt).1)
  · refine chain'_append_pairwise ?_ (chain'_append_pairwise ?_ htP ?_) ?_
    · simp [List.chain'_cons, List.chain'_singleton, percentOk, h1p, h2p]
    · exact List.Chain'.imp (fun a b h => Or.inr h)
        (chain'_percent_workerLoopWrites jobId title quality genre est now
          lines)
    · intro x hx y hy
      rcases (ht y hy).2 with herr | h92
      · exact Or.inl herr
      · refine Or.inr (le_trans ?_ h92)
        have := (hmemL x hx).2.2
        omega
    · intro x hx y hy
      have hxp : x.percent ≤ 10 := by
        rcases List.mem_cons.mp hx with rfl | hx2
        · rw [h1p]; omega
        · rcases List.mem_cons.mp hx2 with rfl | hx3
          · rw [h2p]
          · simp at hx3
      rcases List.mem_append.mp hy with hyL | hyt
      · exact Or.inr (le_trans hxp (le_of_lt (hmemL y hyL).2.1))
      · rcases (ht y hyt).2 with herr | h92
        · exact Or.inl herr
        · exact Or.inr (le_trans hxp (by omega))

/-- C6 amended: within one job's Worker Process lifetime the sequence
of ProgressRecord writes never regresses in stage in the order
idle < downloading < processing < finalizing < (complete, error), and
every written percent is greater than or equal to the previously
written one except into an error write, which carries the default
percent 0 - provided every percentage parsed from the engine stream
is in the engine's 0-100 range. -/
theorem C6_write_monotonicity (env : WorkerEnv)
    (jobId url quality genre title : String) (s : HostState)
    (h100 : ∀ ls rc, env.demucsRun = Except.ok (ls, rc) →
      ∀ l ∈ ls, (parse_demucs_progress l).getD 0 ≤ 100) :
    List.Chain' stageOk
      (run_stem_separation_background env jobId url quality genre title s).1 ∧
    List.Chain' percentOk
      (run_stem_separation_background env jobId url quality genre title s).1
    := by
  unfold run_stem_separation_background workerFail
  dsimp only
  split
  · exact ⟨List.chain'_singleton _, List.chain'_singleton _⟩
  · split
    · constructor
      · simp [List.chain'_cons, List.chain'_singleton, stageOk, mkProgress,
          stageRank]
      · simp [List.chain'_cons, List.chain'_singleton, percentOk, mkProgress]
    · split
      · constructor
        · simp [List.chain'_cons, List.chain'_singleton, stageOk, mkProgress,
            stageRank]
        · simp [List.chain'_cons, List.chain'_singleton, percentOk, mkProgress]
      · split
        · constructor
          · simp [List.chain'_cons, List.chain'_singleton, stageOk, mkProgress,
              stageRank]
          · simp [List.chain'_cons, List.chain'_singleton, percentOk,
              mkProgress]
        · split
          · constructor
            · simp [List.chain'_cons, List.chain'_singleton, stageOk,
                mkProgress, stageRank]
            · simp [List.chain'_cons, List.chain'_singleton, percentOk,
                mkProgress]
          · rename_i lines drc heq
            have hlines := h100 lines drc heq
            simp only [List.append_assoc]
            split
            · refine worker_block_chains _ _ _ _ _ _ lines hlines _ _ ?_ ?_
                ?_ ?_ _ ?_ ?_ ?_
              · rfl
              · rfl
              · rfl
              · rfl
              · exact List.chain'_singleton _
              · exact List.chain'_singleton _
              · intro y hy
                simp only [List.mem_singleton] at hy
                subst hy
                exact ⟨by norm_num [mkProgress, stageRank], Or.inl rfl⟩
            · split
              · refine worker_block_chains _ _ _ _ _ _ lines hlines _ _ ?_ ?_
                  ?_ ?_ _ ?_ ?_ ?_
                · rfl
                · rfl
                · rfl
                · rfl
                · simp [List.singleton_append, List.chain'_cons,
                    List.chain'_singleton, stageOk, mkProgress, stageRank]
                · simp [List.singleton_append, List.chain'_cons,
                    List.chain'_singleton, percentOk, mkProgress]
                · intro y hy
                  simp only [List.singleton_append] at hy
                  rcases List.mem_cons.mp hy with rfl | hy2
                  · exact ⟨by norm_num [mkProgress, stageRank],
                      Or.inr (by norm_num [mkProgress])⟩
                  · simp only [List.mem_singleton] at hy2
                    subst hy2
                    exact ⟨by norm_num [mkProgress, stageRank], Or.inl rfl⟩
              · split
                · refine worker_block_chains _ _ _ _ _ _ lines hlines _ _ ?_
                    ?_ ?_ ?_ _ ?_ ?_ ?_
                  · rfl
                  · rfl
                  · rfl
                  · rfl
                  · simp [List.singleton_append, List.chain'_cons,
                      List.chain'_singleton, stageOk, mkProgress, stageRank]
                  · simp [List.singleton_append, List.chain'_cons,
                      List.chain'_singleton, percentOk, mkProgress]
                  · intro y hy
                    simp only [List.singleton_append] at hy
                    rcases List.mem_cons.mp hy with rfl | hy2
                    · exact ⟨by norm_num [mkProgress, stageRank],
                        Or.inr (by norm_num [mkProgress])⟩
                    · simp only [List.mem_singleton] at hy2
                      subst hy2
                      exact ⟨by norm_num [mkProgress, stageRank], Or.inl rfl⟩
                · refine worker_block_chains _ _ _ _ _ _ lines hlines _ _ ?_
                    ?_ ?_ ?_ _ ?_ ?_ ?_
                  · rfl
                  · rfl
                  · rfl
                  · rfl
                  · simp [List.singleton_append, List.chain'_cons,
                      List.chain'_singleton, stageOk, mkProgress, stageRank]
                  · simp [List.singleton_append, List.chain'_cons,
                      List.chain'_singleton, percentOk, mkProgress]
                  · intro y hy
                    simp only [List.singleton_append] at hy
                    rcases List.mem_cons.mp hy with rfl | hy2
                    · exact ⟨by norm_num [mkProgress, stageRank],
                        Or.inr (by norm_num [mkProgress])⟩
                    · simp only [List.mem_singleton] at hy2
                      subst hy2
                      exact ⟨by norm_num [mkProgress, stageRank],
                        Or.inr (by norm_num [mkProgress])⟩


/-- Worker environment for the C6 counterexample: the yt-dlp download
exits nonzero, so the worker writes downloading at percent 5 followed
by an error write at the default percent 0. -/
def c6cenv : WorkerEnv :=
  ⟨true, "tmpc6", 42, 1000, Except.ok (1, "boom"), true, none,
    Except.ok ([], 0), true, [], ".mp3", true⟩

/-- Counterexample to C6 as stated: on a failed download the worker's
write sequence has percents [5, 0], so a written percent is strictly
below the previously written one. -/
theorem C6_counterexample :
    ((run_stem_separation_background c6cenv "job_1" "u" "fast" "full" "T"
        ⟨none, none, []⟩).1.map (fun w => w.percent)) = [5, 0] ∧
    ¬ List.Chain' (fun a b : ProgressRecord => a.percent ≤ b.percent)
      (run_stem_separation_background c6cenv "job_1" "u" "fast" "full" "T"
        ⟨none, none, []⟩).1 := by
  constructor
  · rfl
  · intro hc
    have h5 := (List.chain'_cons.mp hc).1
    simp [run_stem_separation_background, workerFail, c6cenv,
      mkProgress] at h5

/-- Worker environment for the C6 witness: a fully successful run
with one engine progress line. -/
def c6wenv : WorkerEnv :=
  ⟨true, "tmpc6w", 42, 1000, Except.ok (0, ""), true, some 100,
    Except.ok (["50%|"], 0), true, ["vocals", "drums", "bass", "other"],
    ".mp3", true⟩

/-- Witness for C6 amended on a concrete successful run. -/
theorem C6_write_monotonicity_witness :
    List.Chain' stageOk
      (run_stem_separation_background c6wenv "job_1" "u" "fast" "full" "T"
        ⟨none, none, []⟩).1 ∧
    List.Chain' percentOk
      (run_stem_separation_background c6wenv "job_1" "u" "fast" "full" "T"
        ⟨none, none, []⟩).1 := by
  refine C6_write_monotonicity c6wenv "job_1" "u" "fast" "full" "T"
    ⟨none, none, []⟩ ?_
  intro ls rc hls
  have hpair : (["50%|"], (0 : Int)) = (ls, rc) := by
    injection hls
  injection hpair with h1 h2
  subst h1
  intro l hl
  simp only [List.mem_singleton] at hl
  subst hl
  decide

/-- C7: for every execution of the Worker Process pipeline and every
exit path (success, step failure, or a step raising an exception), a
created workspace directory is removed before the process terminates,
the JobRecord is cleared, and the last progress write is terminal
(complete or error); the worker never terminates leaving the
workspace or the JobRecord lingering. -/
theorem C7_worker_cleanup (env : WorkerEnv)
    (jobId url quality genre title : String)
    (s : HostState) (hfresh : env.tempDirName ∉ s.dirs) :
    env.tempDirName ∉
      (run_stem_separation_background env jobId url quality genre title
        s).2.dirs ∧
    (run_stem_separation_background env jobId url quality genre title
      s).2.jobFile = none ∧
    ∃ w, (run_stem_separation_background env jobId url quality genre title
        s).1.getLast? = some w ∧
      (w.stage = Stage.complete ∨ w.stage = Stage.error) := by
  have hnm : ∀ l : List String,
      env.tempDirName ∉ l.filter (fun d => d ≠ env.tempDirName) := by
    intro l hmem
    have h2 := (List.mem_filter.mp hmem).2
    simp at h2
  unfold run_stem_separation_background workerFail
  dsimp only
  split
  · exact ⟨hfresh, rfl, _, rfl, Or.inr rfl⟩
  · split
    · exact ⟨hnm _, rfl, _, List.getLast?_concat _, Or.inr rfl⟩
    · split
      · exact ⟨hnm _, rfl, _, List.getLast?_concat _, Or.inr rfl⟩
      · split
        · exact ⟨hnm _, rfl, _, List.getLast?_concat _, Or.inr rfl⟩
        · split
          · exact ⟨hnm _, rfl, _, List.getLast?_concat _, Or.inr rfl⟩
          · split
            · exact ⟨hnm _, rfl, _, List.getLast?_concat _, Or.inr rfl⟩
            · split
              · exact ⟨hnm _, rfl, _, List.getLast?_concat _, Or.inr rfl⟩
              · split
                · exact ⟨hnm _, rfl, _, List.getLast?_concat _, Or.inr rfl⟩
                · exact ⟨hnm _, rfl, _, List.getLast?_concat _, Or.inl rfl⟩

/-- Witness for C7 on a concrete successful run starting from an
empty workspace set. -/
theorem C7_worker_cleanup_witness :
    c6wenv.tempDirName ∉
      (run_stem_separation_background c6wenv "job_1" "u" "fast" "full" "T"
        ⟨none, none, []⟩).2.dirs ∧
    (run_stem_separation_background c6wenv "job_1" "u" "fast" "full" "T"
      ⟨none, none, []⟩).2.jobFile = none ∧
    ∃ w, (run_stem_separation_background c6wenv "job_1" "u" "fast" "full" "T"
        ⟨none, none, []⟩).1.getLast? = some w ∧
      (w.stage = Stage.complete ∨ w.stage = Stage.error) :=
  C7_worker_cleanup c6wenv "job_1" "u" "fast" "full" "T" ⟨none, none, []⟩
    (by simp)

/-- C8: for a genre mode with a combined-stem specification (hiphop),
if the mixing tool fails the combined file is omitted from the
produced-file count while each individually copied stem still counts:
with only the vocals stem eligible for copying, the job ends complete
at percent 100 reporting one produced file when vocals is present,
and ends as an error write carrying "No output files" exactly when
zero files total were produced. -/
theorem C8_combined_stem_failure (env : WorkerEnv)
    (jobId url quality title : String) (s : HostState)
    (dstderr : String) (lines : List String)
    (hda : env.demucsAvailable = true)
    (hdl : env.downloadResult = Except.ok (0, dstderr))
    (hwav : env.wavFound = true)
    (hdm : env.demucsRun = Except.ok (lines, 0))
    (hsdf : env.stemsDirFound = true)
    (hcomb : env.combineOk = false) :
    ("vocals" ∈ env.stemsPresent →
      (run_stem_separation_background env jobId url quality "hiphop" title
          s).1.getLast? =
        some (mkProgress .complete "Created 1 stem files" 100 none
          (some title) (some jobId) (some "download_stems") (some quality)
          (some "hiphop") none env.now)) ∧
    ("vocals" ∉ env.stemsPresent →
      (run_stem_separation_background env jobId url quality "hiphop" title
          s).1.getLast? =
        some (mkProgress .error "No stem files were created" 0 none
          (some title) (some jobId) (some "download_stems") (some quality)
          (some "hiphop") (some "No output files") env.now)) := by
  have hgm : genreModeOf "hiphop" = hiphopMode := by rfl
  constructor
  · intro hv
    unfold run_stem_separation_background
    rw [hgm]
    simp only [hda, hdl, hwav, hdm, hsdf, hcomb, hv, hiphopMode]
    simp [hv]
    rw [show ∀ a : ProgressRecord, ∀ M : List ProgressRecord,
        a :: M = [a] ++ M from fun a M => rfl,
      List.getLast?_append_of_ne_nil _ (by simp),
      List.getLast?_append_of_ne_nil _ (by simp)]
    rfl
  · intro hv
    unfold run_stem_separation_background
    rw [hgm]
    simp only [hda, hdl, hwav, hdm, hsdf, hcomb, hv, hiphopMode]
    simp [hv]
    rw [show ∀ a : ProgressRecord, ∀ M : List ProgressRecord,
        a :: M = [a] ++ M from fun a M => rfl,
      List.getLast?_append_of_ne_nil _ (by simp),
      List.getLast?_append_of_ne_nil _ (by simp)]
    rfl

/-- Worker environment for the C8 witness: successful pipeline, all
four stems found, mixing tool failing. -/
def c8env : WorkerEnv :=
  ⟨true, "tmpc8", 42, 1000, Except.ok (0, ""), true, none,
    Except.ok ([], 0), true, ["vocals", "drums", "bass", "other"], ".mp3",
    false⟩

/-- Witness for C8: on the concrete failing-mix run with vocals
present, the job completes reporting one produced file (the combined
beat file is omitted). -/
theorem C8_combined_stem_failure_witness :
    (run_stem_separation_background c8env "job_1" "u" "fast" "hiphop" "T"
        ⟨none, none, []⟩).1.getLast? =
      some (mkProgress .complete "Created 1 stem files" 100 none (some "T")
        (some "job_1") (some "download_stems") (some "fast") (some "hiphop")
        none 1000) :=
  (C8_combined_stem_failure c8env "job_1" "u" "fast" "T" ⟨none, none, []⟩
    "" [] rfl rfl rfl rfl rfl rfl).1 (by decide)

/-- C10: every quality outside fast/balanced/high falls back to the
fast preset and every genre outside full/hiphop/rock falls back to
the full mode (all four stems); an unrecognized quality or genre
never causes a rejection (startJob's success does not depend on them)
nor any change to the sequence of written stages relative to the
fast/full run in the same environment, so no error progress state
arises from the unrecognized values. -/
theorem C10_unknown_quality_genre (q g : String)
    (hq : q ≠ "fast" ∧ q ≠ "balanced" ∧ q ≠ "high")
    (hg : g ≠ "full" ∧ g ≠ "hiphop" ∧ g ≠ "rock")
    (env : WorkerEnv) (jobId url title : String) (s : HostState)
    (env2 : SupEnv) (url2 : String) (s2 : HostState) :
    presetOf q = fastPreset ∧ genreModeOf g = fullMode ∧
    (start_stems_job env2 url2 q g s2).1.success =
      (start_stems_job env2 url2 "fast" "full" s2).1.success ∧
    (run_stem_separation_background env jobId url q g title s).1.map
        (fun w => w.stage) =
      (run_stem_separation_background env jobId url "fast" "full" title
        s).1.map (fun w => w.stage) := by
  obtain ⟨hq1, hq2, hq3⟩ := hq
  obtain ⟨hg1, hg2, hg3⟩ := hg
  have hp : presetOf q = fastPreset := by simp [presetOf, hq1, hq2, hq3]
  have hm : genreModeOf g = fullMode := by simp [genreModeOf, hg1, hg2, hg3]
  refine ⟨hp, hm, ?_, ?_⟩
  · unfold start_stems_job startProceed
    dsimp only
    split
    · split
      · split
        · split
          · rfl
          · rfl
        · rfl
      · rfl
    · rfl
  · unfold run_stem_separation_background workerFail
    rw [hp, hm, show genreModeOf "full" = fullMode from rfl,
      show presetOf "fast" = fastPreset from rfl]
    dsimp only
    split
    · simp [mkProgress]
    · split
      · simp [mkProgress]
      · split
        · simp [mkProgress]
        · split
          · simp [mkProgress]
          · split
            · simp [mkProgress]
            · split
              · simp [workerLoopWrites, loopWrite, List.map_map, mkProgress,
                  Function.comp]
              · split
                · simp [workerLoopWrites, loopWrite, List.map_map, mkProgress,
                    Function.comp]
                · split
                  · simp [workerLoopWrites, loopWrite, List.map_map,
                      mkProgress, Function.comp]
                  · simp [workerLoopWrites, loopWrite, List.map_map,
                      mkProgress, Function.comp]

/-- Witness for C10 at the unrecognized values "ultra" and "jazz". -/
theorem C10_unknown_quality_genre_witness :
    presetOf "ultra" = fastPreset ∧ genreModeOf "jazz" = fullMode ∧
    (start_stems_job c1env "u" "ultra" "jazz" ⟨none, none, []⟩).1.success =
      (start_stems_job c1env "u" "fast" "full"
        ⟨none, none, []⟩).1.success ∧
    (run_stem_separation_background c8env "job_1" "u" "ultra" "jazz" "T"
        ⟨none, none, []⟩).1.map (fun w => w.stage) =
      (run_stem_separation_background c8env "job_1" "u" "fast" "full" "T"
        ⟨none, none, []⟩).1.map (fun w => w.stage) :=
  C10_unknown_quality_genre "ultra" "jazz"
    ⟨by decide, by decide, by decide⟩ ⟨by decide, by decide, by decide⟩
    c8env "job_1" "u" "T" ⟨none, none, []⟩ c1env "u" ⟨none, none, []⟩

end Centrifugue
